import Mathlib

/-!
Verification development for the episodic few-shot dataloader of
ultimate-utils (torch_uutils/dataloaders/old/episodic_dataloader.py).

The Python code is shallowly embedded: tensors over an example type become
nested lists, Python integers become Int, Python slicing and range get
explicit models, torch.randperm is modelled either abstractly (an arbitrary
stream of permutations of List.range total_classes, one per episode) or
concretely (a seeded linear-congruential generator driving a Fisher-Yates
style draw), and the filesystem calls (os.listdir, glob.glob) become fields
of an explicit FileSystem record.
-/

/-- Python slice bound for a nonnegative-or-negative stop index on a list of
length len: negative indices count from the end, and bounds clamp to the
list length (semantics of l[:stop] and l[start:]). -/
def pyStop (stop : Int) (len : Nat) : Nat :=
  if stop < 0 then ((len : Int) + stop).toNat else min stop.toNat len

/-- Model of the Python slice l[:stop] (also of tensor[:stop] on dim 0). -/
def pySliceTo (stop : Int) (l : List α) : List α :=
  l.take (pyStop stop l.length)

/-- Model of the Python slice l[start:] (also of tensor[start:] on dim 0). -/
def pySliceFrom (start : Int) (l : List α) : List α :=
  l.drop (pyStop start l.length)

/-- Model of Python range(n) for an Int argument: empty when n <= 0. -/
def pyRange (n : Int) : List Int :=
  (List.range n.toNat).map Int.ofNat

/-- Model of numpy np.repeat(l, k) for a list of scalars: each element is
repeated k times in place, keeping block order. -/
def npRepeat (l : List Int) (k : Nat) : List Int :=
  (l.map (fun i => List.replicate k i)).flatten

/-- EpisodicSampler from episodic_dataloader.py: its constructor stores the
three parameters unchanged (the source performs no validation). -/
structure EpisodicSampler where
  total_classes : Int
  n_classes : Int
  n_episode : Int
deriving DecidableEq, Repr

/-- Model of EpisodicSampler.__init__: stores the parameters, nothing else. -/
def EpisodicSampler.init (total_classes n_classes n_episode : Int) : EpisodicSampler :=
  { total_classes := total_classes, n_classes := n_classes, n_episode := n_episode }

/-- Model of EpisodicSampler.__iter__ with the randomness abstracted: g e is
the permutation returned by the e-th call to torch.randperm(total_classes);
each yielded group is that permutation sliced to the first n_classes
entries. One call of iterWith models one full traversal of a fresh
generator (Python generator functions restart from scratch on each call to
iter(), so there is no cursor shared between traversals). -/
def EpisodicSampler.iterWith (s : EpisodicSampler) (g : Nat → List Nat) : List (List Nat) :=
  (List.range s.n_episode.toNat).map (fun e => pySliceTo s.n_classes (g e))

/-- Model of EpisodicSampler.__len__. -/
def EpisodicSampler.len (s : EpisodicSampler) : Int :=
  s.n_episode

/-- Step of a 64-bit linear congruential generator, modelling the seeded
global torch random-number generator state. -/
def lcg (s : Nat) : Nat :=
  (6364136223846793005 * s + 1442695040888963407) % 18446744073709551616

/-- Remove the element at position k from a list, returning it and the rest
(0 and the empty list when out of range; callers stay in range). -/
def removeAt : List Nat → Nat → Nat × List Nat
  | [], _ => (0, [])
  | x :: xs, 0 => (x, xs)
  | x :: xs, k + 1 =>
    let r := removeAt xs k
    (r.1, x :: r.2)

/-- Fuelled Fisher-Yates style draw: repeatedly pick a pseudo-random
position of the remaining pool. Returns the drawn sequence and the final
generator state. -/
def randpermGo : Nat → List Nat → Nat → List Nat × Nat
  | 0, _, st => ([], st)
  | fuel + 1, pool, st =>
    match pool with
    | [] => ([], st)
    | _ :: _ =>
      let st' := lcg st
      let r := removeAt pool (st' % pool.length)
      let rest := randpermGo fuel r.2 st'
      (r.1 :: rest.1, rest.2)

/-- Concrete model of torch.randperm(n) under a seeded generator state:
returns the permutation and the advanced state. -/
def torchRandperm (n : Nat) (st : Nat) : List Nat × Nat :=
  randpermGo n (List.range n) st

/-- Episode loop of EpisodicSampler.__iter__ under the concrete seeded
generator: one torch.randperm call per episode, threading the state. -/
def iterSeededGo (total_classes n_classes : Int) : Nat → Nat → List (List Nat)
  | 0, _ => []
  | e + 1, st =>
    let p := torchRandperm total_classes.toNat st
    pySliceTo n_classes p.1 :: iterSeededGo total_classes n_classes e p.2

/-- Model of one full run of EpisodicSampler.__iter__ with the global torch
generator seeded to seed at the start of the run. -/
def EpisodicSampler.iterSeeded (s : EpisodicSampler) (seed : Nat) : List (List Nat) :=
  iterSeededGo s.total_classes s.n_classes s.n_episode.toNat seed

/- ----------------------------------------------------------------- -/
/- Shared helper lemmas                                              -/
/- ----------------------------------------------------------------- -/

theorem pyStop_of_nonneg (stop : Int) (h : 0 ≤ stop) (len : Nat) :
    pyStop stop len = min stop.toNat len := by
  simp [pyStop, not_lt.mpr h]

theorem pySliceTo_length (stop : Int) (h : 0 ≤ stop) (l : List α) :
    (pySliceTo stop l).length = min stop.toNat l.length := by
  simp only [pySliceTo, pyStop_of_nonneg stop h, List.length_take]
  omega

theorem pySliceFrom_length (start : Int) (h : 0 ≤ start) (l : List α) :
    (pySliceFrom start l).length = l.length - start.toNat := by
  simp [pySliceFrom, pyStop_of_nonneg start h]
  omega

theorem pySliceTo_append_pySliceFrom (i : Int) (l : List α) :
    pySliceTo i l ++ pySliceFrom i l = l := by
  simp [pySliceTo, pySliceFrom, List.take_append_drop]

theorem iterSeededGo_length (t nc : Int) :
    ∀ (n st : Nat), (iterSeededGo t nc n st).length = n := by
  intro n
  induction n with
  | zero => intro st; rfl
  | succ m ih => intro st; simp [iterSeededGo, ih]

theorem getD_map_of_lt {f : α → β} {l : List α} {i : Nat} (hi : i < l.length) (d : β) :
    (l.map f).getD i d = f (l.get ⟨i, hi⟩) := by
  simp [List.getD_eq_getElem?_getD, List.getElem?_map, List.getElem?_eq_getElem hi]

theorem getD_of_lt {l : List α} {i : Nat} (hi : i < l.length) (d : α) :
    l.getD i d = l.get ⟨i, hi⟩ := by
  simp [List.getD_eq_getElem?_getD, List.getElem?_eq_getElem hi]

theorem pyRange_get (n : Int) (i : Nat) (hi : i < (pyRange n).length) :
    (pyRange n).get ⟨i, hi⟩ = (i : Int) := by
  simp [pyRange]

theorem pyRange_length (n : Int) : (pyRange n).length = n.toNat := by
  simp [pyRange]

/- ----------------------------------------------------------------- -/
/- Claim C1                                                          -/
/- ----------------------------------------------------------------- -/

/-- Claim C1: for every EpisodicSampler constructed with
0 < n_classes <= total_classes, every index-group yielded by iterating the
sampler (with each episode drawing a permutation of [0, total_classes), as
torch.randperm does) contains exactly n_classes entries, the entries are
pairwise distinct, and each entry lies in [0, total_classes). -/
theorem C1_groups_are_nclasses_distinct_in_range
    (s : EpisodicSampler) (g : Nat → List Nat)
    (h1 : 0 < s.n_classes) (h2 : s.n_classes ≤ s.total_classes)
    (hg : ∀ e, (g e).Perm (List.range s.total_classes.toNat)) :
    ∀ G ∈ s.iterWith g,
      G.length = s.n_classes.toNat ∧ G.Nodup ∧ ∀ x ∈ G, (x : Int) < s.total_classes := by
  intro G hG
  simp only [EpisodicSampler.iterWith, List.mem_map] at hG
  obtain ⟨e, -, rfl⟩ := hG
  have hlen : (g e).length = s.total_classes.toNat := by
    have := (hg e).length_eq
    simpa using this
  have hnc : (0 : Int) ≤ s.n_classes := le_of_lt h1
  have hle : s.n_classes.toNat ≤ s.total_classes.toNat := Int.toNat_le_toNat h2
  refine ⟨?_, ?_, ?_⟩
  · rw [pySliceTo_length _ hnc, hlen]
    omega
  · have hnodup : (g e).Nodup := (hg e).nodup_iff.mpr (List.nodup_range _)
    exact hnodup.sublist (List.take_sublist _ _)
  · intro x hx
    have hx' : x ∈ g e := List.take_subset _ _ hx
    have hx'' : x ∈ List.range s.total_classes.toNat := (hg e).subset hx'
    have hxlt : x < s.total_classes.toNat := List.mem_range.mp hx''
    have ht : (0 : Int) ≤ s.total_classes := le_trans hnc h2
    have : (x : Int) < (s.total_classes.toNat : Int) := Int.ofNat_lt.mpr hxlt
    rwa [Int.toNat_of_nonneg ht] at this

/-- Witness for C1 at a concrete sampler and permutation stream. -/
theorem C1_groups_are_nclasses_distinct_in_range_witness :
    (0 : Int) < (EpisodicSampler.init 3 2 2).n_classes ∧
    (EpisodicSampler.init 3 2 2).n_classes ≤ (EpisodicSampler.init 3 2 2).total_classes ∧
    ∀ G ∈ (EpisodicSampler.init 3 2 2).iterWith (fun _ => List.range 3),
      G.length = (EpisodicSampler.init 3 2 2).n_classes.toNat ∧ G.Nodup ∧
      ∀ x ∈ G, (x : Int) < (EpisodicSampler.init 3 2 2).total_classes :=
  ⟨by decide, by decide,
   C1_groups_are_nclasses_distinct_in_range (EpisodicSampler.init 3 2 2)
     (fun _ => List.range 3) (by decide) (by decide)
     (fun _ => List.Perm.refl _)⟩

/- ----------------------------------------------------------------- -/
/- Claim C6                                                          -/
/- ----------------------------------------------------------------- -/

/-- Claim C6: for every EpisodicSampler with n_episode >= 0, one full
iteration yields exactly n_episode index-groups and __len__ returns
n_episode; a second, independent iteration (possibly with fresh randomness
g2) again yields exactly n_episode groups, since each call of __iter__
starts a fresh generator; and when n_episode = 0 iteration yields the
empty sequence rather than an error. -/
theorem C6_iteration_length_restartable
    (s : EpisodicSampler) (g1 g2 : Nat → List Nat) (h : 0 ≤ s.n_episode) :
    ((s.iterWith g1).length : Int) = s.n_episode ∧
    s.len = s.n_episode ∧
    ((s.iterWith g2).length : Int) = s.n_episode ∧
    (s.n_episode = 0 → s.iterWith g1 = []) := by
  refine ⟨?_, rfl, ?_, ?_⟩
  · simp [EpisodicSampler.iterWith, Int.toNat_of_nonneg h]
  · simp [EpisodicSampler.iterWith, Int.toNat_of_nonneg h]
  · intro h0
    simp [EpisodicSampler.iterWith, h0]

/-- Witness for C6 at a concrete sampler and two permutation streams. -/
theorem C6_iteration_length_restartable_witness :
    (0 : Int) ≤ (EpisodicSampler.init 10 5 3).n_episode ∧
    (((EpisodicSampler.init 10 5 3).iterWith (fun _ => List.range 10)).length : Int)
        = (EpisodicSampler.init 10 5 3).n_episode ∧
    (EpisodicSampler.init 10 5 3).len = (EpisodicSampler.init 10 5 3).n_episode ∧
    (((EpisodicSampler.init 10 5 3).iterWith
        (fun _ => (List.range 10).reverse)).length : Int)
        = (EpisodicSampler.init 10 5 3).n_episode ∧
    ((EpisodicSampler.init 10 5 3).n_episode = 0 →
      (EpisodicSampler.init 10 5 3).iterWith (fun _ => List.range 10) = []) :=
  ⟨by decide,
   C6_iteration_length_restartable (EpisodicSampler.init 10 5 3)
     (fun _ => List.range 10) (fun _ => (List.range 10).reverse) (by decide)⟩

/- ----------------------------------------------------------------- -/
/- Claim C7                                                          -/
/- ----------------------------------------------------------------- -/

/-- Claim C7: two independent runs of the full iteration that start the
random generator from the same seed produce identical sequences of
index-groups; with n_episode >= 0 that common sequence has exactly
n_episode groups. The sequence is a deterministic function of the seed and
the stored parameters only. -/
theorem C7_same_seed_same_sequence
    (s1 s2 : EpisodicSampler) (seed1 seed2 : Nat)
    (hs : s1 = s2) (hseed : seed1 = seed2) (hn : 0 ≤ s1.n_episode) :
    s1.iterSeeded seed1 = s2.iterSeeded seed2 ∧
    ((s1.iterSeeded seed1).length : Int) = s1.n_episode := by
  subst hs; subst hseed
  refine ⟨rfl, ?_⟩
  simp [EpisodicSampler.iterSeeded, iterSeededGo_length, Int.toNat_of_nonneg hn]

/-- Witness for C7 at a concrete sampler and seed. -/
theorem C7_same_seed_same_sequence_witness :
    EpisodicSampler.init 10 5 3 = EpisodicSampler.init 10 5 3 ∧ 42 = 42 ∧
    (0 : Int) ≤ (EpisodicSampler.init 10 5 3).n_episode ∧
    ((EpisodicSampler.init 10 5 3).iterSeeded 42
        = (EpisodicSampler.init 10 5 3).iterSeeded 42 ∧
      (((EpisodicSampler.init 10 5 3).iterSeeded 42).length : Int)
        = (EpisodicSampler.init 10 5 3).n_episode) :=
  ⟨rfl, rfl, by decide,
   C7_same_seed_same_sequence (EpisodicSampler.init 10 5 3)
     (EpisodicSampler.init 10 5 3) 42 42 rfl rfl (by decide)⟩

/- ----------------------------------------------------------------- -/
/- Claim C8                                                          -/
/- ----------------------------------------------------------------- -/

/-- Counterexample to claim C8: constructing an EpisodicSampler with
n_classes = 5 > total_classes = 3 does not fail; the constructor stores
the invalid parameters and iterating still yields index-groups (truncated
to all 3 available classes). -/
theorem C8_counterexample_no_validation :
    EpisodicSampler.init 3 5 2 = { total_classes := 3, n_classes := 5, n_episode := 2 } ∧
    (EpisodicSampler.init 3 5 2).iterWith (fun _ => List.range 3) = [[0, 1, 2], [0, 1, 2]] ∧
    (EpisodicSampler.init 3 5 2).iterWith (fun _ => List.range 3) ≠ [] := by
  refine ⟨rfl, by decide, by decide⟩

/-- Amended claim C8: EpisodicSampler.__init__ performs no validation:
for any parameters it returns a sampler storing them unchanged, and when
0 <= total_classes < n_classes the sampler still yields groups, each group
being the whole permutation, hence of size total_classes rather than
n_classes (Python slicing truncates silently). -/
theorem C8_amended_init_unchecked
    (t nc ne : Int) (g : Nat → List Nat)
    (h0 : 0 ≤ t) (hlt : t < nc)
    (hg : ∀ e, (g e).Perm (List.range t.toNat)) :
    EpisodicSampler.init t nc ne = { total_classes := t, n_classes := nc, n_episode := ne } ∧
    ∀ G ∈ (EpisodicSampler.init t nc ne).iterWith g, G.length = t.toNat := by
  refine ⟨rfl, ?_⟩
  intro G hG
  simp only [EpisodicSampler.iterWith, List.mem_map] at hG
  obtain ⟨e, -, rfl⟩ := hG
  have hlen : (g e).length = t.toNat := by
    have := (hg e).length_eq
    simpa using this
  have hnc : (0 : Int) ≤ nc := le_of_lt (lt_of_le_of_lt h0 hlt)
  show (pySliceTo nc (g e)).length = t.toNat
  rw [pySliceTo_length _ hnc, hlen]
  have : t.toNat ≤ nc.toNat := Int.toNat_le_toNat (le_of_lt hlt)
  omega

/-- Witness for the amended C8 at concrete invalid parameters. -/
theorem C8_amended_init_unchecked_witness :
    (0 : Int) ≤ 3 ∧ (3 : Int) < 5 ∧
    (EpisodicSampler.init 3 5 2 = { total_classes := 3, n_classes := 5, n_episode := 2 } ∧
      ∀ G ∈ (EpisodicSampler.init 3 5 2).iterWith (fun _ => List.range 3),
        G.length = (3 : Int).toNat) :=
  ⟨by decide, by decide,
   C8_amended_init_unchecked 3 5 2 (fun _ => List.range 3) (by decide) (by decide)
     (fun _ => List.Perm.refl _)⟩

/- ----------------------------------------------------------------- -/
/- Support/query split functions                                     -/
/- ----------------------------------------------------------------- -/

/-- Experiment-argument namespace fields used by the two split functions. -/
structure Args where
  n_classes : Int
  k_shot : Int
  k_eval : Int
deriving DecidableEq, Repr

/-- Return shape of get_support_query_batch_of_tasks_class_is_task_M_eq_N:
per-class grouping is kept, so every field has a leading class axis. -/
structure TaskSplit (α : Type) where
  S_x : List (List α)
  S_y : List (List Int)
  Q_x : List (List α)
  Q_y : List (List Int)

/-- Return shape of get_support_query_set_for_data_set_is_task: tensors are
flattened across the class axis. -/
structure FlatSplit (α : Type) where
  S_x : List α
  S_y : List Int
  Q_x : List α
  Q_y : List Int

/-- Model of get_support_query_batch_of_tasks_class_is_task_M_eq_N from
episodic_dataloader.py. SQ_x is the [n_classes, k_shot+k_eval] batch of
examples (an example modelled as an arbitrary α); the label rows are built
as torch.stack([torch.tensor([i]).repeat(k_shot) for i in list_classes]).
The .to(args.device) moves are identities here. SQ_y is accepted and
ignored, as in the source. -/
def get_support_query_batch_of_tasks_class_is_task_M_eq_N (args : Args)
    (SQ_x : List (List α)) (SQ_y : List (List Int)) : TaskSplit α :=
  let list_classes := pyRange args.n_classes
  let S_x := SQ_x.map (fun row => pySliceTo args.k_shot row)
  let S_y := list_classes.map (fun i => List.replicate args.k_shot.toNat i)
  let Q_x := SQ_x.map (fun row => pySliceFrom args.k_shot row)
  let Q_y := list_classes.map (fun i => List.replicate args.k_eval.toNat i)
  { S_x := S_x, S_y := S_y, Q_x := Q_x, Q_y := Q_y }

/-- Model of get_support_query_set_for_data_set_is_task from
episodic_dataloader.py. The reshape(-1, *CHW) at the end flattens the class
axis, modelled by List.flatten; the label vectors are built with
np.repeat(range(n_classes), k). SQ_y is accepted and ignored, as in the
source. -/
def get_support_query_set_for_data_set_is_task (args : Args)
    (SQ_x : List (List α)) (SQ_y : List (List Int)) : FlatSplit α :=
  let list_classes := pyRange args.n_classes
  let S_x := (SQ_x.map (fun row => pySliceTo args.k_shot row)).flatten
  let S_y := npRepeat list_classes args.k_shot.toNat
  let Q_x := (SQ_x.map (fun row => pySliceFrom args.k_shot row)).flatten
  let Q_y := npRepeat list_classes args.k_eval.toNat
  { S_x := S_x, S_y := S_y, Q_x := Q_x, Q_y := Q_y }

/- Helper lemmas about flattened blocks of constant width. -/

theorem flatten_block (rows : List (List α)) (k : Nat) :
    ∀ (i : Nat), (∀ r ∈ rows, r.length = k) → i < rows.length →
      (rows.flatten.drop (i * k)).take k = rows.getD i [] := by
  induction rows with
  | nil => intro i _ hi; simp at hi
  | cons r rest ih =>
    intro i hall hi
    have hr : r.length = k := hall r (List.mem_cons_self r rest)
    cases i with
    | zero =>
      simp only [Nat.zero_mul, List.drop_zero, List.flatten_cons, List.getD_cons_zero]
      rw [← hr]
      exact List.take_left r rest.flatten
    | succ j =>
      have hstep : ((r :: rest).flatten).drop ((j + 1) * k) = rest.flatten.drop (j * k) := by
        rw [List.flatten_cons]
        have hk : (j + 1) * k = r.length + j * k := by rw [hr]; ring
        rw [hk, ← List.drop_drop, List.drop_left]
      rw [hstep, List.getD_cons_succ]
      exact ih j (fun r' hr' => hall r' (List.mem_cons_of_mem _ hr')) (Nat.lt_of_succ_lt_succ hi)

theorem length_flatten_of_const (rows : List (List α)) (k : Nat)
    (h : ∀ r ∈ rows, r.length = k) : rows.flatten.length = rows.length * k := by
  induction rows with
  | nil => simp
  | cons r rest ih =>
    simp only [List.flatten_cons, List.length_append, List.length_cons]
    rw [h r (List.mem_cons_self r rest), ih (fun r' hr' => h r' (List.mem_cons_of_mem _ hr'))]
    ring

/- ----------------------------------------------------------------- -/
/- Claim C4                                                          -/
/- ----------------------------------------------------------------- -/

/-- Claim C4: for every episode batch (one row of k_shot+k_eval examples
per selected class) and every class position i, every example in the i-th
class's support and query slice carries that class's label i, under both
aggregation policies. For class-as-task, the i-th support/query label row
is constantly i, has the same length as the i-th example row, and the i-th
example row draws only from the i-th class's batch. For dataset-as-task,
the i-th k_shot-block (resp. k_eval-block) of the flattened labels is
constantly i and the matching block of the flattened examples is exactly
the i-th class's support (resp. query) slice. -/
theorem C4_label_alignment (args : Args) (SQ_x : List (List α)) (SQ_y : List (List Int))
    (hn : SQ_x.length = args.n_classes.toNat)
    (hrow : ∀ r ∈ SQ_x, r.length = args.k_shot.toNat + args.k_eval.toNat)
    (hks : 0 ≤ args.k_shot) (hke : 0 ≤ args.k_eval) :
    ∀ i, i < args.n_classes.toNat →
      ((∀ y ∈ (get_support_query_batch_of_tasks_class_is_task_M_eq_N args SQ_x SQ_y).S_y.getD i [],
          y = (i : Int)) ∧
       ((get_support_query_batch_of_tasks_class_is_task_M_eq_N args SQ_x SQ_y).S_y.getD i []).length
         = ((get_support_query_batch_of_tasks_class_is_task_M_eq_N args SQ_x SQ_y).S_x.getD i []).length ∧
       (∀ x ∈ (get_support_query_batch_of_tasks_class_is_task_M_eq_N args SQ_x SQ_y).S_x.getD i [],
          x ∈ SQ_x.getD i []) ∧
       (∀ y ∈ (get_support_query_batch_of_tasks_class_is_task_M_eq_N args SQ_x SQ_y).Q_y.getD i [],
          y = (i : Int)) ∧
       ((get_support_query_batch_of_tasks_class_is_task_M_eq_N args SQ_x SQ_y).Q_y.getD i []).length
         = ((get_support_query_batch_of_tasks_class_is_task_M_eq_N args SQ_x SQ_y).Q_x.getD i []).length ∧
       (∀ x ∈ (get_support_query_batch_of_tasks_class_is_task_M_eq_N args SQ_x SQ_y).Q_x.getD i [],
          x ∈ SQ_x.getD i [])) ∧
      (((get_support_query_set_for_data_set_is_task args SQ_x SQ_y).S_y.drop
            (i * args.k_shot.toNat)).take args.k_shot.toNat
         = List.replicate args.k_shot.toNat (i : Int) ∧
       ((get_support_query_set_for_data_set_is_task args SQ_x SQ_y).S_x.drop
            (i * args.k_shot.toNat)).take args.k_shot.toNat
         = pySliceTo args.k_shot (SQ_x.getD i []) ∧
       ((get_support_query_set_for_data_set_is_task args SQ_x SQ_y).Q_y.drop
            (i * args.k_eval.toNat)).take args.k_eval.toNat
         = List.replicate args.k_eval.toNat (i : Int) ∧
       ((get_support_query_set_for_data_set_is_task args SQ_x SQ_y).Q_x.drop
            (i * args.k_eval.toNat)).take args.k_eval.toNat
         = pySliceFrom args.k_shot (SQ_x.getD i [])) := by
  intro i hi
  have hiS : i < SQ_x.length := by rw [hn]; exact hi
  have hiR : i < (pyRange args.n_classes).length := by rw [pyRange_length]; exact hi
  have hrowlen : (SQ_x.get ⟨i, hiS⟩).length = args.k_shot.toNat + args.k_eval.toNat :=
    hrow _ (List.get_mem _ _ _)
  simp only [get_support_query_batch_of_tasks_class_is_task_M_eq_N,
    get_support_query_set_for_data_set_is_task]
  refine ⟨⟨?_, ?_, ?_, ?_, ?_, ?_⟩, ?_, ?_, ?_, ?_⟩
  · rw [getD_map_of_lt hiR, pyRange_get]
    intro y hy
    exact List.eq_of_mem_replicate hy
  · rw [getD_map_of_lt hiR, getD_map_of_lt hiS]
    rw [List.length_replicate, pySliceTo_length _ hks, hrowlen]
    omega
  · rw [getD_map_of_lt hiS, getD_of_lt hiS]
    intro x hx
    exact List.take_subset _ _ hx
  · rw [getD_map_of_lt hiR, pyRange_get]
    intro y hy
    exact List.eq_of_mem_replicate hy
  · rw [getD_map_of_lt hiR, getD_map_of_lt hiS]
    rw [List.length_replicate, pySliceFrom_length _ hks, hrowlen]
    omega
  · rw [getD_map_of_lt hiS, getD_of_lt hiS]
    intro x hx
    exact List.drop_subset _ _ hx
  · simp only [npRepeat]
    rw [flatten_block _ args.k_shot.toNat i
      (by
        intro r hr
        obtain ⟨j, -, rfl⟩ := List.mem_map.mp hr
        exact List.length_replicate _ _)
      (by rw [List.length_map, pyRange_length]; exact hi)]
    rw [getD_map_of_lt hiR, pyRange_get]
  · rw [flatten_block _ args.k_shot.toNat i
      (by
        intro r hr
        obtain ⟨row, hrowm, rfl⟩ := List.mem_map.mp hr
        rw [pySliceTo_length _ hks, hrow row hrowm]
        omega)
      (by rw [List.length_map]; exact hiS)]
    rw [getD_map_of_lt hiS, getD_of_lt hiS]
  · simp only [npRepeat]
    rw [flatten_block _ args.k_eval.toNat i
      (by
        intro r hr
        obtain ⟨j, -, rfl⟩ := List.mem_map.mp hr
        exact List.length_replicate _ _)
      (by rw [List.length_map, pyRange_length]; exact hi)]
    rw [getD_map_of_lt hiR, pyRange_get]
  · rw [flatten_block _ args.k_eval.toNat i
      (by
        intro r hr
        obtain ⟨row, hrowm, rfl⟩ := List.mem_map.mp hr
        rw [pySliceFrom_length _ hks, hrow row hrowm]
        omega)
      (by rw [List.length_map]; exact hiS)]
    rw [getD_map_of_lt hiS, getD_of_lt hiS]

/-- Witness for C4 at a concrete 2-way 1-shot 1-eval batch. -/
theorem C4_label_alignment_witness :
    ([[(10 : Int), 11], [20, 21]] : List (List Int)).length = (Args.mk 2 1 1).n_classes.toNat ∧
    ((get_support_query_set_for_data_set_is_task (Args.mk 2 1 1)
        [[(10 : Int), 11], [20, 21]] [[5, 5], [7, 7]]).S_y.drop
          (1 * (Args.mk 2 1 1).k_shot.toNat)).take (Args.mk 2 1 1).k_shot.toNat
      = List.replicate (Args.mk 2 1 1).k_shot.toNat (1 : Int) ∧
    ((get_support_query_set_for_data_set_is_task (Args.mk 2 1 1)
        [[(10 : Int), 11], [20, 21]] [[5, 5], [7, 7]]).S_x.drop
          (1 * (Args.mk 2 1 1).k_shot.toNat)).take (Args.mk 2 1 1).k_shot.toNat
      = pySliceTo (Args.mk 2 1 1).k_shot (([[(10 : Int), 11], [20, 21]] : List (List Int)).getD 1 []) :=
  ⟨by decide,
   ((C4_label_alignment (Args.mk 2 1 1) [[(10 : Int), 11], [20, 21]] [[5, 5], [7, 7]]
      (by decide) (by decide) (by decide) (by decide)) 1 (by decide)).2.1,
   ((C4_label_alignment (Args.mk 2 1 1) [[(10 : Int), 11], [20, 21]] [[5, 5], [7, 7]]
      (by decide) (by decide) (by decide) (by decide)) 1 (by decide)).2.2.1⟩

/- ----------------------------------------------------------------- -/
/- Claim C5                                                          -/
/- ----------------------------------------------------------------- -/

/-- Claim C5: for every episode batch with k_shot+k_eval examples for each
of the n_classes classes, the flattened support set has exactly
n_classes * k_shot elements and the flattened query set exactly
n_classes * k_eval; in the per-class split each class keeps its row count,
and for each class the support slice concatenated with the query slice is
exactly the original row (first k_shot as support, remaining k_eval as
query), so each input example lands in exactly one of the two sets. -/
theorem C5_support_query_sizes_partition (args : Args)
    (SQ_x : List (List α)) (SQ_y : List (List Int))
    (hn : SQ_x.length = args.n_classes.toNat)
    (hrow : ∀ r ∈ SQ_x, r.length = args.k_shot.toNat + args.k_eval.toNat)
    (hks : 0 ≤ args.k_shot) (hke : 0 ≤ args.k_eval) :
    (get_support_query_set_for_data_set_is_task args SQ_x SQ_y).S_x.length
        = args.n_classes.toNat * args.k_shot.toNat ∧
    (get_support_query_set_for_data_set_is_task args SQ_x SQ_y).Q_x.length
        = args.n_classes.toNat * args.k_eval.toNat ∧
    (get_support_query_batch_of_tasks_class_is_task_M_eq_N args SQ_x SQ_y).S_x.length
        = SQ_x.length ∧
    (get_support_query_batch_of_tasks_class_is_task_M_eq_N args SQ_x SQ_y).Q_x.length
        = SQ_x.length ∧
    ∀ p ∈ ((get_support_query_batch_of_tasks_class_is_task_M_eq_N args SQ_x SQ_y).S_x.zip
            (get_support_query_batch_of_tasks_class_is_task_M_eq_N args SQ_x SQ_y).Q_x).zip SQ_x,
      p.1.1 ++ p.1.2 = p.2 := by
  have hallS : ∀ r ∈ SQ_x.map (fun row => pySliceTo args.k_shot row),
      r.length = args.k_shot.toNat := by
    intro r hr
    obtain ⟨row, hrowm, rfl⟩ := List.mem_map.mp hr
    rw [pySliceTo_length _ hks, hrow row hrowm]
    omega
  have hallQ : ∀ r ∈ SQ_x.map (fun row => pySliceFrom args.k_shot row),
      r.length = args.k_eval.toNat := by
    intro r hr
    obtain ⟨row, hrowm, rfl⟩ := List.mem_map.mp hr
    rw [pySliceFrom_length _ hks, hrow row hrowm]
    omega
  simp only [get_support_query_batch_of_tasks_class_is_task_M_eq_N,
    get_support_query_set_for_data_set_is_task]
  refine ⟨?_, ?_, ?_, ?_, ?_⟩
  · rw [length_flatten_of_const _ _ hallS, List.length_map, hn]
  · rw [length_flatten_of_const _ _ hallQ, List.length_map, hn]
  · exact List.length_map _ _
  · exact List.length_map _ _
  · have hzip1 : (SQ_x.map (fun row => pySliceTo args.k_shot row)).zip
        (SQ_x.map (fun row => pySliceFrom args.k_shot row))
        = SQ_x.map (fun r => (pySliceTo args.k_shot r, pySliceFrom args.k_shot r)) :=
      List.zip_map' _ _ SQ_x
    have hzip2 : (SQ_x.map (fun r => (pySliceTo args.k_shot r, pySliceFrom args.k_shot r))).zip SQ_x
        = SQ_x.map (fun r => ((pySliceTo args.k_shot r, pySliceFrom args.k_shot r), r)) := by
      have h := List.zip_map' (fun r => (pySliceTo args.k_shot r, pySliceFrom args.k_shot r))
        id SQ_x
      simpa using h
    rw [hzip1, hzip2]
    intro p hp
    obtain ⟨r, -, rfl⟩ := List.mem_map.mp hp
    exact pySliceTo_append_pySliceFrom args.k_shot r

/-- Witness for C5 at a concrete 2-way 1-shot 1-eval batch. -/
theorem C5_support_query_sizes_partition_witness :
    ([[(10 : Int), 11], [20, 21]] : List (List Int)).length = (Args.mk 2 1 1).n_classes.toNat ∧
    (get_support_query_set_for_data_set_is_task (Args.mk 2 1 1)
        [[(10 : Int), 11], [20, 21]] [[5, 5], [7, 7]]).S_x.length
      = (Args.mk 2 1 1).n_classes.toNat * (Args.mk 2 1 1).k_shot.toNat ∧
    (get_support_query_set_for_data_set_is_task (Args.mk 2 1 1)
        [[(10 : Int), 11], [20, 21]] [[5, 5], [7, 7]]).Q_x.length
      = (Args.mk 2 1 1).n_classes.toNat * (Args.mk 2 1 1).k_eval.toNat :=
  ⟨by decide,
   (C5_support_query_sizes_partition (Args.mk 2 1 1) [[(10 : Int), 11], [20, 21]]
      [[5, 5], [7, 7]] (by decide) (by decide) (by decide) (by decide)).1,
   (C5_support_query_sizes_partition (Args.mk 2 1 1) [[(10 : Int), 11], [20, 21]]
      [[5, 5], [7, 7]] (by decide) (by decide) (by decide) (by decide)).2.1⟩

/- ----------------------------------------------------------------- -/
/- Dataset and filesystem model                                      -/
/- ----------------------------------------------------------------- -/

/-- Lexicographic comparison of character lists by code point, the order
Python uses to compare strings. -/
def charListLe : List Char → List Char → Bool
  | [], _ => true
  | _ :: _, [] => false
  | a :: as, b :: bs =>
    if a.toNat < b.toNat then true
    else if b.toNat < a.toNat then false
    else charListLe as bs

/-- Python string comparison a <= b. -/
def pyStrLe (a b : String) : Bool :=
  charListLe a.toList b.toList

/-- Insert a string into a sorted list, keeping it sorted. -/
def insertSorted (x : String) : List String → List String
  | [] => [x]
  | y :: ys => if pyStrLe x y then x :: y :: ys else y :: insertSorted x ys

/-- Model of Python sorted() on a list of strings (insertion sort; Python's
sort is stable and the order is the code point order of pyStrLe). -/
def pySorted : List String → List String
  | [] => []
  | x :: xs => insertSorted x (pySorted xs)

/-- Python value stored in ClassDataset.images. The documented contract of
ClassDataset is a list of paths, but the constructor call site in
MetaSet_Dataset.__init__ passes a string; Python is untyped, so the
embedding carries both possibilities and gives each Python's len() and
indexing semantics. -/
inductive PyStrOrList where
  | str : String → PyStrOrList
  | list : List String → PyStrOrList
deriving DecidableEq, Repr

/-- Python len() of the images value: character count for a string, element
count for a list. -/
def pyLen : PyStrOrList → Nat
  | .str s => s.length
  | .list l => l.length

/-- Python indexing images[idx]: a one-character string for a string, the
stored path for a list (totalized with a default; callers stay in range). -/
def pyIndex : PyStrOrList → Nat → String
  | .str s, idx => (s.toList.getD idx ' ').toString
  | .list l, idx => l.getD idx ""

/-- ClassDataset from episodic_dataloader.py: the per-class example store
and its immutable label (the transform is folded into the decode
collaborator below). -/
structure ClassDataset where
  images : PyStrOrList
  label : Int
deriving DecidableEq, Repr

/-- Model of ClassDataset.__getitem__: decode the image at the indexed path
(PIL open plus optional transform, abstracted as decode) and pair it with
the stored label. -/
def ClassDataset.getitem (decode : String → α) (c : ClassDataset) (idx : Nat) : α × Int :=
  (decode (pyIndex c.images idx), c.label)

/-- Model of ClassDataset.__len__. -/
def ClassDataset.lenModel (c : ClassDataset) : Nat :=
  pyLen c.images

/-- torch DataLoader over one ClassDataset, as configured in
MetaSet_Dataset.__init__ (shuffle=True, batch_size=k_shot+k_eval,
drop_last left at its default False). -/
structure DataLoaderModel where
  dataset : ClassDataset
  batch_size : Int
deriving DecidableEq, Repr

/-- First batch of a shuffling DataLoader: perm is the random permutation
of range(len(dataset)) drawn by the sampler; the first batch collates the
items at the first batch_size positions of perm — all remaining items when
fewer than batch_size are available, since drop_last=False. next() on an
empty dataset raises StopIteration, modelled as none. -/
def firstBatch (decode : String → α) (dl : DataLoaderModel) (perm : List Nat) :
    Option (List α × List Int) :=
  if pyLen dl.dataset.images = 0 then none
  else
    some ((pySliceTo dl.batch_size perm).map
            (fun i => (ClassDataset.getitem decode dl.dataset i).1),
          (pySliceTo dl.batch_size perm).map
            (fun i => (ClassDataset.getitem decode dl.dataset i).2))

/-- Filesystem oracle: os.listdir (none when the directory does not exist,
modelling the OSError the call raises) and glob.glob (a possibly-empty
list of matching paths). -/
structure FileSystem where
  listdir : String → Option (List String)
  glob : String → List String

/-- Model of os.path.join for the relative-component case used here. -/
def pathJoin (a b : String) : String :=
  a ++ "/" ++ b

/-- State built by MetaSet_Dataset.__init__: the sorted class labels and
one DataLoader per class. -/
structure MetaSetState where
  labels : List String
  episode_loader : List DataLoaderModel
deriving DecidableEq, Repr

/-- Model of MetaSet_Dataset.__init__. Returns none when os.listdir fails
(missing phase directory). The source appends path_to_Dt — the glob
pattern string — to meta_set_as_paths, while list_pathnames_of_images (the
glob result) is computed and then never used; the embedding reproduces
this faithfully, including the unused glob call. -/
def MetaSet_Dataset.init (fs : FileSystem) (root phase : String)
    (k_shot k_eval : Int) : Option MetaSetState :=
  match fs.listdir (pathJoin root phase) with
  | none => none
  | some entries =>
    let labels := pySorted entries
    let meta_set_as_paths := labels.map (fun label =>
      let path_to_Dt := pathJoin (pathJoin root phase) label ++ "/*"
      let _list_pathnames_of_images := fs.glob path_to_Dt
      path_to_Dt)
    let episode_loader := (List.range labels.length).map (fun (idx : Nat) =>
      let label : Int := (idx : Int)
      let path_to_task_imgs := meta_set_as_paths.getD idx ""
      let Dt_classdataset : ClassDataset := { images := .str path_to_task_imgs, label := label }
      let nb_examples_for_S_Q := k_shot + k_eval
      ({ dataset := Dt_classdataset, batch_size := nb_examples_for_S_Q } : DataLoaderModel))
    some { labels := labels, episode_loader := episode_loader }

/-- Default DataLoader totalizing the list indexing in getitem. -/
def dlDefault : DataLoaderModel :=
  { dataset := { images := .list [], label := 0 }, batch_size := 0 }

/-- Model of MetaSet_Dataset.__getitem__: builds a fresh iterator over the
idx-th class loader and takes its next batch; perm is the shuffle
permutation that iterator draws. -/
def MetaSet_Dataset.getitem (decode : String → α) (st : MetaSetState) (idx : Nat)
    (perm : List Nat) : Option (List α × List Int) :=
  firstBatch decode (st.episode_loader.getD idx dlDefault) perm

/-- Model of MetaSet_Dataset.__len__. -/
def MetaSet_Dataset.lenModel (st : MetaSetState) : Nat :=
  st.labels.length

/- ----------------------------------------------------------------- -/
/- Claim C2                                                          -/
/- ----------------------------------------------------------------- -/

/-- Concrete filesystem for exercising MetaSet_Dataset.__init__: one phase
directory r/train with one class subdirectory c containing two example
files matched by the glob pattern. -/
def fsC2 : FileSystem :=
  { listdir := fun p => if p = "r/train" then some ["c"] else none,
    glob := fun p => if p = "r/train/c/*" then ["r/train/c/a.jpg", "r/train/c/b.jpg"] else [] }

/-- State MetaSet_Dataset.__init__ actually builds over fsC2. -/
def stC2 : MetaSetState :=
  { labels := ["c"],
    episode_loader :=
      [{ dataset := { images := .str "r/train/c/*", label := 0 }, batch_size := 20 }] }

/-- Claim C2 evaluated at a failing input: with one class directory holding
2 matching example files, the constructed Class entity stores the glob
pattern string r/train/c/* (not the list of matching paths), so its
modelled example_count / __len__ is 11 — the character count of the
pattern — while the directory holds 2 matching files. The source computes
list_pathnames_of_images and then appends path_to_Dt instead, contradicting
its own comments and the documented ClassDataset contract. -/
theorem C2_stores_pattern_not_file_list :
    MetaSet_Dataset.init fsC2 "r" "train" 5 15 = some stC2 ∧
    (stC2.episode_loader.getD 0 dlDefault).dataset.images = PyStrOrList.str "r/train/c/*" ∧
    ClassDataset.lenModel (stC2.episode_loader.getD 0 dlDefault).dataset = 11 ∧
    (fsC2.glob "r/train/c/*").length = 2 ∧
    ClassDataset.lenModel (stC2.episode_loader.getD 0 dlDefault).dataset
      ≠ (fsC2.glob "r/train/c/*").length := by
  refine ⟨by decide, by decide, by decide, by decide, by decide⟩

/- ----------------------------------------------------------------- -/
/- Claim C3                                                          -/
/- ----------------------------------------------------------------- -/

/-- DataLoader over a class with a single example but batch_size 2
(k_shot = k_eval = 1, so k_shot + k_eval = 2 > 1 available example). -/
def dlSmall : DataLoaderModel :=
  { dataset := { images := .list ["img0.jpg"], label := 0 }, batch_size := 2 }

/-- MetaDataset state holding the single undersized class. -/
def stSmall : MetaSetState :=
  { labels := ["c"], episode_loader := [dlSmall] }

/-- Counterexample to claim C3: materializing an episode from a class with
1 example while k_shot + k_eval = 2 does not fail with an
insufficient-data error — it silently returns a truncated batch holding
the single available example. -/
theorem C3_counterexample_silent_truncation :
    MetaSet_Dataset.getitem (fun p : String => p) stSmall 0 [0] = some (["img0.jpg"], [0]) ∧
    MetaSet_Dataset.getitem (fun p : String => p) stSmall 0 [0] ≠ none ∧
    pyLen dlSmall.dataset.images < (2 : Int).toNat := by
  refine ⟨by decide, by decide, by decide⟩

/-- Amended claim C3: when a selected class has 0 < n examples and
n <= k_shot + k_eval (the loader's batch_size), episode materialization
raises no error and silently truncates: it returns one batch holding all n
available examples (the code has no insufficient-data check; only an empty
class makes next() fail). -/
theorem C3_amended_truncates_to_available
    (decode : String → α) (st : MetaSetState) (idx : Nat) (perm : List Nat) (n : Nat)
    (dl : DataLoaderModel)
    (hdl : st.episode_loader.getD idx dlDefault = dl)
    (hn : pyLen dl.dataset.images = n)
    (h0 : 0 < n)
    (hperm : perm.Perm (List.range n))
    (hB : (n : Int) ≤ dl.batch_size) :
    ∃ xs ys, MetaSet_Dataset.getitem decode st idx perm = some (xs, ys) ∧
      xs.length = n ∧ ys.length = n := by
  unfold MetaSet_Dataset.getitem firstBatch
  rw [hdl, hn, if_neg (by omega : ¬ n = 0)]
  refine ⟨_, _, rfl, ?_, ?_⟩ <;>
  · have hpl : perm.length = n := by simpa using hperm.length_eq
    have hBnn : (0 : Int) ≤ dl.batch_size := le_trans (by exact_mod_cast Nat.zero_le n) hB
    have hle : n ≤ dl.batch_size.toNat := by
      have := Int.toNat_le_toNat hB
      simpa using this
    rw [List.length_map, pySliceTo_length _ hBnn, hpl]
    omega

/-- Witness for the amended C3 at the concrete undersized class. -/
theorem C3_amended_truncates_to_available_witness :
    stSmall.episode_loader.getD 0 dlDefault = dlSmall ∧
    pyLen dlSmall.dataset.images = 1 ∧
    0 < 1 ∧
    ([0] : List Nat).Perm (List.range 1) ∧
    ((1 : Nat) : Int) ≤ dlSmall.batch_size ∧
    ∃ xs ys, MetaSet_Dataset.getitem (fun p : String => p) stSmall 0 [0] = some (xs, ys) ∧
      xs.length = 1 ∧ ys.length = 1 :=
  ⟨by decide, by decide, by decide, by decide, by decide,
   C3_amended_truncates_to_available (fun p : String => p) stSmall 0 [0] 1 dlSmall
     (by decide) (by decide) (by decide) (by decide) (by decide)⟩

/- ----------------------------------------------------------------- -/
/- Claim C9                                                          -/
/- ----------------------------------------------------------------- -/

/-- Filesystem with no directories at all: every os.listdir call fails. -/
def fsMissing : FileSystem :=
  { listdir := fun _ => none, glob := fun _ => [] }

/-- Filesystem where the phase directory r/train exists but is empty. -/
def fsEmptyPhase : FileSystem :=
  { listdir := fun p => if p = "r/train" then some [] else none, glob := fun _ => [] }

/-- Counterexample to claim C9: when the phase directory exists but holds
zero class subdirectories, MetaSet_Dataset.__init__ does not fail — it
silently constructs an empty dataset. -/
theorem C9_counterexample_empty_phase_constructs :
    MetaSet_Dataset.init fsEmptyPhase "r" "train" 5 15
      = some { labels := [], episode_loader := [] } ∧
    MetaSet_Dataset.init fsEmptyPhase "r" "train" 5 15 ≠ none := by
  refine ⟨by decide, by decide⟩

/-- Amended claim C9: construction fails (propagating the os.listdir
error) when the phase subdirectory of the root does not exist; when the
phase directory exists with zero class subdirectories, construction
succeeds and silently builds an empty dataset (zero classes, zero
loaders). -/
theorem C9_amended_fail_only_on_missing_dir (fs : FileSystem) (root phase : String)
    (k_shot k_eval : Int) :
    (fs.listdir (pathJoin root phase) = none →
      MetaSet_Dataset.init fs root phase k_shot k_eval = none) ∧
    (fs.listdir (pathJoin root phase) = some [] →
      MetaSet_Dataset.init fs root phase k_shot k_eval
        = some { labels := [], episode_loader := [] }) := by
  constructor
  · intro h
    unfold MetaSet_Dataset.init
    rw [h]
  · intro h
    unfold MetaSet_Dataset.init
    rw [h]
    rfl

/-- Witness for the amended C9 at the two concrete filesystems. -/
theorem C9_amended_fail_only_on_missing_dir_witness :
    MetaSet_Dataset.init fsMissing "r" "train" 5 15 = none ∧
    MetaSet_Dataset.init fsEmptyPhase "r" "train" 5 15
      = some { labels := [], episode_loader := [] } :=
  ⟨(C9_amended_fail_only_on_missing_dir fsMissing "r" "train" 5 15).1 rfl,
   (C9_amended_fail_only_on_missing_dir fsEmptyPhase "r" "train" 5 15).2 (by decide)⟩

/- ----------------------------------------------------------------- -/
/- Claim C10                                                         -/
/- ----------------------------------------------------------------- -/

/-- Shape of the idx-th DataLoader built by MetaSet_Dataset.init: its
dataset stores the idx-th glob pattern string and the label idx, and its
batch size is k_shot + k_eval. -/
theorem init_getD (fs : FileSystem) (root phase : String)
    (k_shot k_eval : Int) (st : MetaSetState)
    (hinit : MetaSet_Dataset.init fs root phase k_shot k_eval = some st)
    (idx : Nat) (hidx : idx < st.episode_loader.length) :
    st.episode_loader.getD idx dlDefault
      = { dataset :=
            { images := PyStrOrList.str
                ((st.labels.map (fun label => pathJoin (pathJoin root phase) label ++ "/*")).getD
                  idx ""),
              label := (idx : Int) },
          batch_size := k_shot + k_eval } := by
  unfold MetaSet_Dataset.init at hinit
  cases heq : fs.listdir (pathJoin root phase) with
  | none => rw [heq] at hinit; exact absurd hinit (by simp)
  | some entries =>
    rw [heq] at hinit
    simp only [Option.some.injEq] at hinit
    subst hinit
    dsimp only at hidx ⊢
    have hidx' : idx < (List.range (pySorted entries).length).length := by
      simpa using hidx
    rw [getD_map_of_lt hidx' dlDefault]
    have hval : (List.range (pySorted entries).length).get ⟨idx, hidx'⟩ = idx := by
      simp
    rw [hval]

/-- Claim C10: for every successfully constructed MetaDataset and every
idx below the class count, the Class at position idx carries label idx
(its position in the sorted enumeration; the constructed value is pure
data, so the label cannot change after construction), and consequently
every label entry of any batch obtained by fetching class idx equals idx. -/
theorem C10_label_equals_position (fs : FileSystem) (root phase : String)
    (k_shot k_eval : Int) (st : MetaSetState)
    (hinit : MetaSet_Dataset.init fs root phase k_shot k_eval = some st)
    (decode : String → α) (idx : Nat) (hidx : idx < st.episode_loader.length)
    (perm : List Nat) :
    (st.episode_loader.getD idx dlDefault).dataset.label = (idx : Int) ∧
    ∀ xs ys, MetaSet_Dataset.getitem decode st idx perm = some (xs, ys) →
      ∀ y ∈ ys, y = (idx : Int) := by
  have hget := init_getD fs root phase k_shot k_eval st hinit idx hidx
  constructor
  · rw [hget]
  · intro xs ys hbatch y hy
    unfold MetaSet_Dataset.getitem firstBatch at hbatch
    rw [hget] at hbatch
    split at hbatch
    · exact absurd hbatch (by simp)
    · simp only [Option.some.injEq, Prod.mk.injEq] at hbatch
      obtain ⟨-, hys⟩ := hbatch
      subst hys
      simp only [List.mem_map] at hy
      obtain ⟨j, -, rfl⟩ := hy
      rfl

/-- Witness for C10 at the concrete one-class filesystem. -/
theorem C10_label_equals_position_witness :
    MetaSet_Dataset.init fsC2 "r" "train" 5 15 = some stC2 ∧
    0 < stC2.episode_loader.length ∧
    (stC2.episode_loader.getD 0 dlDefault).dataset.label = ((0 : Nat) : Int) :=
  ⟨by decide, by decide,
   (C10_label_equals_position fsC2 "r" "train" 5 15 stC2 (by decide)
     (fun p : String => p) 0 (by decide) [0, 1, 2]).1⟩
